import Mathlib

/-!
Shallow embedding of the Express.js in-memory items CRUD service
(`src/server.js`) and verification of its specification.

The service keeps a mutable array `items` of records
`{ id, name, description }`.  Handlers are embedded as pure functions
from the current store (and the request data) to a pair of the HTTP
response and the new store.  JavaScript-specific behaviours are modelled
explicitly:

* `parseInt` semantics for the `:id` path parameter (`jsParseInt`):
  leading whitespace (including Unicode spaces such as NBSP) is skipped,
  an optional sign is read, then the longest digit prefix — hexadecimal
  after a `0x`/`0X` prefix, decimal otherwise; no digits means `NaN`,
  which we model as `none`.  A `NaN` id compares unequal to every item
  id (`idEq`).
* string truthiness for request-body fields (`truthy`): a field is
  "provided" exactly when it is present and non-empty, matching
  `!req.body.name` and `req.body.name || old`.
-/

/-- An item record: `{ id, name, description }` from `server.js`. -/
structure Item where
  id : Int
  name : String
  description : String
deriving DecidableEq, Repr

/-- The seeded store: the initial value of the `items` array. -/
def seedItems : List Item :=
  [ { id := 1, name := "Item A", description := "Description for Item A" },
    { id := 2, name := "Item B", description := "Description for Item B" },
    { id := 3, name := "Item C", description := "Description for Item C" } ]

/-- Response bodies: a JSON item, a JSON array, plain text, or empty. -/
inductive ResBody where
  | jsonItem : Item → ResBody
  | jsonList : List Item → ResBody
  | text : String → ResBody
  | empty : ResBody
deriving DecidableEq, Repr

/-- An HTTP response: status code and body. -/
structure Response where
  status : Nat
  body : ResBody
deriving DecidableEq, Repr

/-- A parsed JSON request body for POST/PUT: the handlers only read the
`name` and `description` fields.  `none` models an absent field. -/
structure ReqBody where
  name : Option String
  description : Option String
deriving DecidableEq, Repr

/-- JavaScript string truthiness of an optional body field: truthy
exactly when present and non-empty (`""` is falsy in JS). -/
def truthy : Option String → Bool
  | some s => s != ""
  | none => false

/-- `v || old` on an optional string field: the value when truthy,
otherwise the fallback (models `req.body.name || items[i].name`). -/
def jsOr (v : Option String) (old : String) : String :=
  match v with
  | some s => if s = "" then old else s
  | none => old

/-- Is `c` whitespace skipped by ECMAScript `parseInt`: the WhiteSpace
characters (TAB, VT, FF, SP, NBSP, ZWNBSP and the Unicode
space-separator category Zs) and the LineTerminator characters
(LF, CR, LS, PS). -/
def isJsSpace (c : Char) : Bool :=
  c = ' ' || c = '\t' || c = '\n' || c = '\r' || c = '\x0b' || c = '\x0c' ||
  c.toNat = 0x00A0 || c.toNat = 0xFEFF || c.toNat = 0x1680 ||
  (0x2000 ≤ c.toNat && c.toNat ≤ 0x200A) ||
  c.toNat = 0x2028 || c.toNat = 0x2029 || c.toNat = 0x202F ||
  c.toNat = 0x205F || c.toNat = 0x3000

/-- Value of a list of decimal digit characters. -/
def digitsVal (ds : List Char) : Nat :=
  ds.foldl (fun n c => n * 10 + (c.toNat - '0'.toNat)) 0

/-- Is `c` a hexadecimal digit. -/
def isHexDigitChar (c : Char) : Bool :=
  c.isDigit || ('a' ≤ c && c ≤ 'f') || ('A' ≤ c && c ≤ 'F')

/-- Value of one hexadecimal digit character. -/
def hexVal (c : Char) : Nat :=
  if c.isDigit then c.toNat - '0'.toNat
  else if 'a' ≤ c && c ≤ 'f' then c.toNat - 'a'.toNat + 10
  else c.toNat - 'A'.toNat + 10

/-- Value of a list of hexadecimal digit characters. -/
def hexDigitsVal (ds : List Char) : Nat :=
  ds.foldl (fun n c => n * 16 + hexVal c) 0

/-- The unsigned part of ECMAScript `parseInt` with no radix argument:
after the optional sign, a `0x`/`0X` prefix selects radix 16 (the
longest prefix of hex digits after it, `NaN` if there are none);
otherwise the longest prefix of decimal digits, `NaN` if empty. -/
def parseUnsigned (cs : List Char) : Option Nat :=
  match cs with
  | '0' :: x :: rest =>
      if x = 'x' || x = 'X' then
        let ds := rest.takeWhile isHexDigitChar
        if ds.isEmpty then none else some (hexDigitsVal ds)
      else
        let ds := ('0' :: x :: rest).takeWhile Char.isDigit
        if ds.isEmpty then none else some (digitsVal ds)
  | _ =>
      let ds := cs.takeWhile Char.isDigit
      if ds.isEmpty then none else some (digitsVal ds)

/-- JavaScript `parseInt(s)` with no radix argument, as called on
`req.params.id`: skip leading whitespace, read an optional sign, then
parse the longest digit prefix (hexadecimal after a `0x`/`0X` prefix,
decimal otherwise); no digits means `NaN`, modelled as `none`. -/
def jsParseInt (s : String) : Option Int :=
  let cs := s.data.dropWhile isJsSpace
  match cs with
  | '-' :: rest => (parseUnsigned rest).map (fun n => -(n : Int))
  | '+' :: rest => (parseUnsigned rest).map (fun n => (n : Int))
  | _ => (parseUnsigned cs).map (fun n => (n : Int))

/-- `i.id === id` where `id` came from `parseInt`: `NaN` (modelled
`none`) is unequal to every number. -/
def idEq (parsed : Option Int) (itemId : Int) : Bool :=
  match parsed with
  | some n => itemId == n
  | none => false

/-- Maximum of a non-empty list of integers, `Math.max(...)`; the `[]`
case is unreachable under the caller's length guard. -/
def listMax : List Int → Int
  | [] => 0
  | [x] => x
  | x :: y :: rest => max x (listMax (y :: rest))

/-- `generateId`: `maxId + 1` where `maxId` is the maximum id over the
current items (`Math.max(...items.map(item => item.id))`), or `0` when
the store is empty. -/
def generateId (items : List Item) : Int :=
  (if items.length > 0 then listMax (items.map Item.id) else 0) + 1

/-- Handler for `GET /api/items`: 200 with the full list. -/
def getItems (items : List Item) : Response × List Item :=
  ({ status := 200, body := .jsonList items }, items)

/-- Handler for `GET /api/items/:id`: find the item whose id equals the
parsed path parameter; 200 with the item, or 404 "Item not found". -/
def getItem (items : List Item) (idStr : String) : Response × List Item :=
  let parsed := jsParseInt idStr
  match items.find? (fun i => idEq parsed i.id) with
  | some item => ({ status := 200, body := .jsonItem item }, items)
  | none => ({ status := 404, body := .text "Item not found" }, items)

/-- Handler for `POST /api/items`: 400 when `name` is falsy, otherwise
append a new item with `generateId`, the given name, and
`description || "No description provided"`; respond 201 with it. -/
def postItem (items : List Item) (body : ReqBody) : Response × List Item :=
  if !(truthy body.name) then
    ({ status := 400, body := .text "Name is required to create an item." }, items)
  else
    let newItem : Item :=
      { id := generateId items,
        name := body.name.getD "",
        description := jsOr body.description "No description provided" }
    ({ status := 201, body := .jsonItem newItem }, items ++ [newItem])

/-- Replace the first element satisfying `p` by its image under `f`,
returning the updated element and list; `none` when no element matches.
Models `findIndex` followed by `items[itemIndex] = ...`. -/
def updateFirst (p : Item → Bool) (f : Item → Item) : List Item → Option (Item × List Item)
  | [] => none
  | x :: xs =>
      if p x then
        some (f x, f x :: xs)
      else
        match updateFirst p f xs with
        | some (y, ys) => some (y, x :: ys)
        | none => none

/-- The merged record built by the PUT handler: keep the id, and take
each body field only when truthy (`req.body.name || old.name`). -/
def mergeItem (body : ReqBody) (old : Item) : Item :=
  { id := old.id,
    name := jsOr body.name old.name,
    description := jsOr body.description old.description }

/-- Handler for `PUT /api/items/:id`: locate the item by the parsed id;
if found, overwrite it in place with the merge of the body over it and
respond 200 with the result; otherwise 404 "Item not found". -/
def putItem (items : List Item) (idStr : String) (body : ReqBody) : Response × List Item :=
  let parsed := jsParseInt idStr
  match updateFirst (fun i => idEq parsed i.id) (mergeItem body) items with
  | some (updated, newItems) => ({ status := 200, body := .jsonItem updated }, newItems)
  | none => ({ status := 404, body := .text "Item not found" }, items)

/-- Handler for `DELETE /api/items/:id`: filter out every item whose id
equals the parsed id; if the store shrank respond 204 with empty body,
otherwise 404 "Item not found". -/
def deleteItem (items : List Item) (idStr : String) : Response × List Item :=
  let parsed := jsParseInt idStr
  let remaining := items.filter (fun i => !(idEq parsed i.id))
  if remaining.length < items.length then
    ({ status := 204, body := .empty }, remaining)
  else
    ({ status := 404, body := .text "Item not found" }, items)

/-- A mutating API operation (the three store-changing routes). -/
inductive Op where
  | post : ReqBody → Op
  | put : String → ReqBody → Op
  | del : String → Op
deriving DecidableEq, Repr

/-- Effect of one operation on the store. -/
def applyOp (items : List Item) : Op → List Item
  | .post body => (postItem items body).2
  | .put idStr body => (putItem items idStr body).2
  | .del idStr => (deleteItem items idStr).2

/-- Store reached from `items` by running a sequence of operations. -/
def run (items : List Item) (ops : List Op) : List Item :=
  ops.foldl applyOp items

/-- Stores reachable from the seeded store by any sequence of
create/update/delete requests. -/
inductive Reachable : List Item → Prop where
  | seed : Reachable seedItems
  | post {items} (body : ReqBody) : Reachable items → Reachable (postItem items body).2
  | put {items} (idStr : String) (body : ReqBody) : Reachable items → Reachable (putItem items idStr body).2
  | del {items} (idStr : String) : Reachable items → Reachable (deleteItem items idStr).2

/-! ### Helper lemmas about `listMax`, `generateId` and `updateFirst` -/

theorem le_listMax (l : List Int) : ∀ x ∈ l, x ≤ listMax l := by
  induction l with
  | nil => intro x hx; exact absurd hx (List.not_mem_nil x)
  | cons a t ih =>
    intro x hx
    cases t with
    | nil =>
      have hxa : x = a := by simpa using hx
      simp [listMax, hxa]
    | cons b t2 =>
      rw [listMax]
      rcases List.mem_cons.mp hx with rfl | h
      · exact le_max_left _ _
      · exact le_trans (ih x h) (le_max_right _ _)

theorem listMax_mem (l : List Int) (h : l ≠ []) : listMax l ∈ l := by
  induction l with
  | nil => exact absurd rfl h
  | cons a t ih =>
    cases t with
    | nil => simp [listMax]
    | cons b t2 =>
      rw [listMax]
      rcases max_choice a (listMax (b :: t2)) with heq | heq
      · rw [heq]; exact List.mem_cons_self _ _
      · rw [heq]; exact List.mem_cons_of_mem _ (ih (by simp))

theorem listMax_eq (l : List Int) (m : Int) (hm : m ∈ l) (hle : ∀ x ∈ l, x ≤ m) :
    listMax l = m :=
  le_antisymm (hle _ (listMax_mem l (List.ne_nil_of_mem hm))) (le_listMax l m hm)

theorem generateId_eq_max_add_one (items : List Item) (m : Int)
    (hm : m ∈ items.map Item.id) (hle : ∀ x ∈ items.map Item.id, x ≤ m) :
    generateId items = m + 1 := by
  have hne : items ≠ [] := by
    intro h; rw [h] at hm; simp at hm
  unfold generateId
  rw [if_pos (List.length_pos.mpr hne), listMax_eq _ m hm hle]

theorem lt_generateId (items : List Item) (i : Item) (hi : i ∈ items) :
    i.id < generateId items := by
  have h1 : i.id ≤ listMax (items.map Item.id) :=
    le_listMax _ _ (List.mem_map_of_mem Item.id hi)
  have hpos : items.length > 0 := List.length_pos.mpr (List.ne_nil_of_mem hi)
  unfold generateId
  rw [if_pos hpos]
  omega

theorem updateFirst_eq_none (p : Item → Bool) (f : Item → Item) (l : List Item)
    (h : ∀ x ∈ l, p x = false) : updateFirst p f l = none := by
  induction l with
  | nil => rfl
  | cons a t ih =>
    rw [updateFirst, if_neg (by simp [h a (List.mem_cons_self a t)]),
      ih fun x hx => h x (List.mem_cons_of_mem a hx)]

theorem updateFirst_append (p : Item → Bool) (f : Item → Item) (pre : List Item) (it : Item)
    (post : List Item) (hpre : ∀ x ∈ pre, p x = false) (hit : p it = true) :
    updateFirst p f (pre ++ it :: post) = some (f it, pre ++ f it :: post) := by
  induction pre with
  | nil => simp [updateFirst, hit]
  | cons a t ih =>
    rw [List.cons_append, updateFirst,
      if_neg (by simp [hpre a (List.mem_cons_self a t)]),
      ih fun x hx => hpre x (List.mem_cons_of_mem a hx)]
    simp

theorem updateFirst_map_id (p : Item → Bool) (body : ReqBody) :
    ∀ (l ys : List Item) (y : Item), updateFirst p (mergeItem body) l = some (y, ys) →
      ys.map Item.id = l.map Item.id := by
  intro l
  induction l with
  | nil => intro ys y h; simp [updateFirst] at h
  | cons a t ih =>
    intro ys y h
    rw [updateFirst] at h
    by_cases hp : p a = true
    · rw [if_pos hp] at h
      obtain ⟨hy, hys⟩ := Prod.mk.injEq .. ▸ Option.some.injEq .. ▸ h
      subst hys
      simp [mergeItem]
    · rw [if_neg hp] at h
      cases hu : updateFirst p (mergeItem body) t with
      | none => rw [hu] at h; simp at h
      | some val =>
        obtain ⟨y1, ys1⟩ := val
        rw [hu] at h
        simp only [Option.some.injEq, Prod.mk.injEq] at h
        obtain ⟨hy, hys⟩ := h
        subst hys
        simp [ih ys1 y1 hu]

theorem length_filter_lt (p : Item → Bool) (l : List Item) (a : Item)
    (ha : a ∈ l) (hpa : p a = false) : (l.filter p).length < l.length := by
  induction l with
  | nil => cases ha
  | cons x t ih =>
    rw [List.filter_cons]
    rcases List.mem_cons.mp ha with rfl | hmem
    · rw [if_neg (by simp [hpa])]
      exact Nat.lt_succ_of_le (List.length_filter_le p t)
    · by_cases hx : p x = true
      · rw [if_pos hx]
        simpa using Nat.succ_lt_succ (ih hmem)
      · rw [if_neg hx]
        exact Nat.lt_succ_of_lt (ih hmem)

theorem putItem_map_id (items : List Item) (s : String) (body : ReqBody) :
    (putItem items s body).2.map Item.id = items.map Item.id := by
  simp only [putItem]
  cases hu : updateFirst (fun i => idEq (jsParseInt s) i.id) (mergeItem body) items with
  | none => rfl
  | some val =>
    obtain ⟨y, ys⟩ := val
    exact updateFirst_map_id _ body items ys y hu

theorem postItem_nodup (items : List Item) (body : ReqBody)
    (h : (items.map Item.id).Nodup) : ((postItem items body).2.map Item.id).Nodup := by
  unfold postItem
  cases htr : truthy body.name with
  | false => exact h
  | true =>
    rw [if_neg (by simp)]
    have hnotin : generateId items ∉ items.map Item.id := by
      intro hmem
      obtain ⟨i, hi, hid⟩ := List.mem_map.mp hmem
      have := lt_generateId items i hi
      omega
    simp only [List.map_append, List.map_cons, List.map_nil]
    rw [List.nodup_append]
    refine ⟨h, List.nodup_singleton _, ?_⟩
    intro a ha hb
    have hab : a = generateId items := by simpa using hb
    exact hnotin (hab ▸ ha)

theorem deleteItem_nodup (items : List Item) (s : String)
    (h : (items.map Item.id).Nodup) : ((deleteItem items s).2.map Item.id).Nodup := by
  simp only [deleteItem]
  by_cases hlt : (items.filter fun i => !(idEq (jsParseInt s) i.id)).length < items.length
  · rw [if_pos hlt]
    exact List.Nodup.sublist (List.Sublist.map Item.id (List.filter_sublist _)) h
  · rw [if_neg hlt]; exact h

theorem length_filter_ne_id (n : Int) :
    ∀ l : List Item, (l.map Item.id).Nodup → n ∈ l.map Item.id →
      (l.filter fun i => !(idEq (some n) i.id)).length + 1 = l.length := by
  intro l
  induction l with
  | nil => intro _ hmem; simp at hmem
  | cons a t ih =>
    intro hnd hmem
    rw [List.map_cons, List.nodup_cons] at hnd
    obtain ⟨hnotin, hndt⟩ := hnd
    rw [List.map_cons] at hmem
    rw [List.filter_cons]
    rcases List.mem_cons.mp hmem with heq | hmem1
    · rw [if_neg (by simp [idEq, heq])]
      have hall : ∀ x ∈ t, (fun i => !(idEq (some n) i.id)) x = true := by
        intro x hx
        have hxne : x.id ≠ n := by
          intro hxe
          exact hnotin (by rw [← heq, ← hxe]; exact List.mem_map_of_mem Item.id hx)
        simp [idEq, hxne]
      rw [List.filter_eq_self.mpr hall]
      simp
    · have hane : a.id ≠ n := fun he => hnotin (he ▸ hmem1)
      rw [if_pos (by simp [idEq, hane])]
      simp only [List.length_cons]
      have := ih hndt hmem1
      omega

/-! ### Claim theorems -/

/-- C1: for every store whose item ids are exactly {1,2,3}, a
`POST /api/items` with body `{"name":"X"}` creates and returns a new
item with id 4, status 201, name "X", and the default description when
the body has no description; in general the allocated id is
`1 + max(id over all current items)`, or 1 if the store is empty. -/
theorem c1_create_allocates_next_id :
    (∀ items : List Item, (items.map Item.id).toFinset = ({1, 2, 3} : Finset Int) →
      postItem items { name := some "X", description := none } =
        ({ status := 201,
           body := .jsonItem { id := 4, name := "X", description := "No description provided" } },
         items ++ [{ id := 4, name := "X", description := "No description provided" }])) ∧
    (∀ items : List Item, items ≠ [] →
      ∃ j ∈ items, generateId items = j.id + 1 ∧ ∀ k ∈ items, k.id ≤ j.id) ∧
    generateId [] = 1 := by
  refine ⟨?_, ?_, by decide⟩
  · intro items hids
    have h3 : (3 : Int) ∈ items.map Item.id := by
      rw [← List.mem_toFinset, hids]; decide
    have hle : ∀ x ∈ items.map Item.id, x ≤ 3 := by
      intro x hx
      have hx3 : x ∈ ({1, 2, 3} : Finset Int) := by
        rw [← hids]; exact List.mem_toFinset.mpr hx
      simp only [Finset.mem_insert, Finset.mem_singleton] at hx3
      rcases hx3 with rfl | rfl | rfl <;> decide
    have hgen : generateId items = 4 := generateId_eq_max_add_one items 3 h3 hle
    simp [postItem, truthy, jsOr, hgen]
  · intro items hne
    have hmapne : items.map Item.id ≠ [] := by simpa using hne
    have hmem := listMax_mem _ hmapne
    obtain ⟨j, hj, hjid⟩ := List.mem_map.mp hmem
    refine ⟨j, hj, ?_, ?_⟩
    · exact generateId_eq_max_add_one items j.id (hjid ▸ hmem)
        (fun x hx => hjid ▸ le_listMax _ x hx)
    · intro k hk
      rw [hjid]
      exact le_listMax _ _ (List.mem_map_of_mem Item.id hk)

/-- C1 witness: instantiated at the seeded store. -/
theorem c1_witness :
    postItem seedItems { name := some "X", description := none } =
      ({ status := 201,
         body := .jsonItem { id := 4, name := "X", description := "No description provided" } },
       seedItems ++ [{ id := 4, name := "X", description := "No description provided" }]) :=
  c1_create_allocates_next_id.1 seedItems (by decide)

/-- C4: for every store state and POST body whose `name` is missing or
empty (falsy), the response is 400 with body
"Name is required to create an item." and the store is unchanged. -/
theorem c4_create_rejects_missing_name :
    ∀ (items : List Item) (body : ReqBody), truthy body.name = false →
      postItem items body =
        ({ status := 400, body := .text "Name is required to create an item." }, items) := by
  intro items body h
  unfold postItem
  rw [if_pos (by rw [h]; rfl)]

/-- C4 witness: `{"description":"d"}` on the seeded store. -/
theorem c4_witness :
    postItem seedItems { name := none, description := some "d" } =
      ({ status := 400, body := .text "Name is required to create an item." }, seedItems) :=
  c4_create_rejects_missing_name seedItems { name := none, description := some "d" } (by decide)

/-- C9: in the initial state, `GET /api/items` returns 200 with exactly
the three seeded items (ids 1, 2, 3 and their seeded names and
descriptions), leaving the store unchanged. -/
theorem c9_seed_state :
    getItems seedItems =
      ({ status := 200,
         body := .jsonList
           [ { id := 1, name := "Item A", description := "Description for Item A" },
             { id := 2, name := "Item B", description := "Description for Item B" },
             { id := 3, name := "Item C", description := "Description for Item C" } ] },
       seedItems) := rfl

/-- C10: an id string with a numeric prefix such as "3abc" is treated by
GET, PUT and DELETE as the integer 3 (parseInt semantics), so against
the seeded store the requests succeed on item 3 rather than returning
404; a string with no leading digits ("abc") parses to NaN and yields
404. -/
theorem c10_numeric_prefix_id :
    jsParseInt "3abc" = some 3 ∧
    getItem seedItems "3abc" =
      ({ status := 200,
         body := .jsonItem { id := 3, name := "Item C", description := "Description for Item C" } },
       seedItems) ∧
    putItem seedItems "3abc" { name := some "N", description := none } =
      ({ status := 200,
         body := .jsonItem { id := 3, name := "N", description := "Description for Item C" } },
       [ { id := 1, name := "Item A", description := "Description for Item A" },
         { id := 2, name := "Item B", description := "Description for Item B" },
         { id := 3, name := "N", description := "Description for Item C" } ]) ∧
    deleteItem seedItems "3abc" =
      ({ status := 204, body := .empty },
       [ { id := 1, name := "Item A", description := "Description for Item A" },
         { id := 2, name := "Item B", description := "Description for Item B" } ]) ∧
    jsParseInt "abc" = none ∧
    getItem seedItems "abc" = ({ status := 404, body := .text "Item not found" }, seedItems) := by
  refine ⟨by decide, by decide, by decide, by decide, by decide, by decide⟩

/-- A store with a gap below its maximum id: ids 1 and 5. -/
def gapStore : List Item :=
  [ { id := 1, name := "A", description := "a" },
    { id := 5, name := "B", description := "b" } ]

/-- C5 counterexample: in the store with ids {1, 5}, item 5 holds the
maximum id; deleting it succeeds (204), but the subsequently created
item gets id 2, not the just-deleted id 5.  So delete-max-then-create
does not reuse the deleted id for every non-empty store. -/
theorem c5_counterexample :
    ({ id := 5, name := "B", description := "b" } : Item) ∈ gapStore ∧
    (∀ j ∈ gapStore, j.id ≤ 5) ∧
    (deleteItem gapStore "5").1.status = 204 ∧
    (postItem (deleteItem gapStore "5").2 { name := some "X", description := none }).1 =
      ⟨201, .jsonItem { id := 2, name := "X", description := "No description provided" }⟩ ∧
    (2 : Int) ≠ 5 := by
  refine ⟨by decide, by decide, by decide, by decide, by decide⟩

/-- C5 (amended): for every store that contains an item `it` holding the
maximum id and also some item with id `it.id - 1`, deleting `it` (by an
id string parsing to `it.id`) succeeds with 204, the allocation rule
then recomputes `max + 1` over the remaining items to exactly `it.id`,
and a subsequent create with a truthy name assigns the new item the
just-deleted id (id reuse occurs). -/
theorem c5_delete_max_then_create_reuses_id :
    ∀ (items : List Item) (it : Item) (s : String) (body : ReqBody),
      it ∈ items → (∀ j ∈ items, j.id ≤ it.id) → (∃ j ∈ items, j.id = it.id - 1) →
      jsParseInt s = some it.id → truthy body.name = true →
      (deleteItem items s).1.status = 204 ∧
      generateId (deleteItem items s).2 = it.id ∧
      (postItem (deleteItem items s).2 body).1 =
        ⟨201, .jsonItem { id := it.id, name := body.name.getD "",
                          description := jsOr body.description "No description provided" }⟩ := by
  intro items it s body hmem hmax hprev hs htr
  obtain ⟨j, hj, hjid⟩ := hprev
  have hpit : (fun i => !(idEq (jsParseInt s) i.id)) it = false := by
    simp [hs, idEq]
  have hlt : (items.filter fun i => !(idEq (jsParseInt s) i.id)).length < items.length :=
    length_filter_lt _ items it hmem hpit
  have hdel : deleteItem items s =
      (⟨204, .empty⟩, items.filter fun i => !(idEq (jsParseInt s) i.id)) := by
    simp only [deleteItem]
    rw [if_pos hlt]
  have hjrem : j ∈ items.filter fun i => !(idEq (jsParseInt s) i.id) := by
    refine List.mem_filter.mpr ⟨hj, ?_⟩
    simp only [hs, idEq, Bool.not_eq_true', beq_eq_false_iff_ne, ne_eq]
    omega
  have hmax1 : ∀ x ∈ (items.filter fun i => !(idEq (jsParseInt s) i.id)).map Item.id,
      x ≤ it.id - 1 := by
    intro x hx
    obtain ⟨k, hk, hkid⟩ := List.mem_map.mp hx
    subst hkid
    have hk1 : k ∈ items := (List.mem_filter.mp hk).1
    have hk2 : k.id ≠ it.id := by
      have hh := (List.mem_filter.mp hk).2
      simpa [hs, idEq] using hh
    have := hmax k hk1
    omega
  have hgen : generateId (items.filter fun i => !(idEq (jsParseInt s) i.id)) = it.id := by
    have hh := generateId_eq_max_add_one _ j.id (List.mem_map_of_mem Item.id hjrem)
      (by intro x hx; rw [hjid]; exact hmax1 x hx)
    rw [hh, hjid]
    omega
  refine ⟨by rw [hdel], by rw [hdel]; exact hgen, ?_⟩
  rw [hdel]
  simp [postItem, htr, hgen]

/-- C5 witness: delete the max-id item 3 of the seeded store, then
create an item named "W": it gets the just-deleted id 3. -/
theorem c5_witness :
    (deleteItem seedItems "3").1.status = 204 ∧
    generateId (deleteItem seedItems "3").2 = 3 ∧
    (postItem (deleteItem seedItems "3").2 { name := some "W", description := none }).1 =
      ⟨201, .jsonItem { id := 3, name := "W", description := "No description provided" }⟩ :=
  c5_delete_max_then_create_reuses_id seedItems
    { id := 3, name := "Item C", description := "Description for Item C" } "3"
    { name := some "W", description := none }
    (by decide) (by decide)
    ⟨{ id := 2, name := "Item B", description := "Description for Item B" }, by decide, by decide⟩
    (by decide) (by decide)

/-- C6 counterexample: it is not true that an id belonging to a deleted
item is never assigned again.  Concretely: from the seeded store, id 3
is present, deleting via "/api/items/3" removes it, and the very next
create allocates `generateId = 3`, the deleted id. -/
theorem c6_counterexample :
    ¬ (∀ (ops1 : List Op) (s : String) (ops2 : List Op) (n : Int),
        n ∈ (run seedItems ops1).map Item.id →
        n ∉ (applyOp (run seedItems ops1) (.del s)).map Item.id →
        generateId (run (applyOp (run seedItems ops1) (.del s)) ops2) ≠ n) := by
  intro h
  exact h [] "3" [] 3 (by decide) (by decide) (by decide)

/-- C6 (amended): an id that belonged to a deleted item CAN be assigned
again to a later-created item: id 3 is in the seeded store, is gone
after the delete, and the next create returns a 201 item with id 3. -/
theorem c6_deleted_id_can_be_reused :
    (3 : Int) ∈ (run seedItems []).map Item.id ∧
    (3 : Int) ∉ (applyOp (run seedItems []) (.del "3")).map Item.id ∧
    (postItem (run (applyOp (run seedItems []) (.del "3")) [])
        { name := some "Y", description := none }).1 =
      ⟨201, .jsonItem { id := 3, name := "Y", description := "No description provided" }⟩ := by
  refine ⟨by decide, by decide, by decide⟩

/-- C2: for an item present in the store (no earlier item shares its
id), a PUT whose body provides only a non-empty description replaces
exactly the description, keeping id and name; symmetrically a body
providing only a non-empty name keeps the description.  The response is
200 with the merged item and the store holds the merged item in place. -/
theorem c2_partial_update_preserves_fields :
    ∀ (pre post : List Item) (it : Item) (s : String) (d nm : String),
      (∀ x ∈ pre, x.id ≠ it.id) → jsParseInt s = some it.id → d ≠ "" → nm ≠ "" →
      putItem (pre ++ it :: post) s { name := none, description := some d } =
        ({ status := 200,
           body := .jsonItem { id := it.id, name := it.name, description := d } },
         pre ++ { id := it.id, name := it.name, description := d } :: post) ∧
      putItem (pre ++ it :: post) s { name := some nm, description := none } =
        ({ status := 200,
           body := .jsonItem { id := it.id, name := nm, description := it.description } },
         pre ++ { id := it.id, name := nm, description := it.description } :: post) := by
  intro pre post it s d nm hpre hs hd hnm
  have hpfalse : ∀ x ∈ pre, (fun i => idEq (jsParseInt s) i.id) x = false := by
    intro x hx
    simp [hs, idEq]
    exact hpre x hx
  have hptrue : (fun i => idEq (jsParseInt s) i.id) it = true := by simp [hs, idEq]
  constructor
  · have hu := updateFirst_append _ (mergeItem { name := none, description := some d })
      pre it post hpfalse hptrue
    have hmerge : mergeItem { name := none, description := some d } it =
        { id := it.id, name := it.name, description := d } := by
      simp [mergeItem, jsOr, hd]
    simp only [putItem]
    rw [hu, hmerge]
  · have hu := updateFirst_append _ (mergeItem { name := some nm, description := none })
      pre it post hpfalse hptrue
    have hmerge : mergeItem { name := some nm, description := none } it =
        { id := it.id, name := nm, description := it.description } := by
      simp [mergeItem, jsOr, hnm]
    simp only [putItem]
    rw [hu, hmerge]

/-- C2 witness: on the seeded store, `PUT /api/items/1` with only a
description, and with only a name. -/
theorem c2_witness :
    putItem seedItems "1" { name := none, description := some "D2" } =
      ({ status := 200,
         body := .jsonItem { id := 1, name := "Item A", description := "D2" } },
       [ { id := 1, name := "Item A", description := "D2" },
         { id := 2, name := "Item B", description := "Description for Item B" },
         { id := 3, name := "Item C", description := "Description for Item C" } ]) ∧
    putItem seedItems "1" { name := some "Z", description := none } =
      ({ status := 200,
         body := .jsonItem { id := 1, name := "Z",
                             description := "Description for Item A" } },
       [ { id := 1, name := "Z", description := "Description for Item A" },
         { id := 2, name := "Item B", description := "Description for Item B" },
         { id := 3, name := "Item C", description := "Description for Item C" } ]) :=
  c2_partial_update_preserves_fields []
    [ { id := 2, name := "Item B", description := "Description for Item B" },
      { id := 3, name := "Item C", description := "Description for Item C" } ]
    { id := 1, name := "Item A", description := "Description for Item A" }
    "1" "D2" "Z" (by decide) (by decide) (by decide) (by decide)

/-- C3: for an id string that parses to NaN, or parses to an integer no
item carries, GET, PUT and DELETE on `/api/items/{id}` all return 404
with body "Item not found" and leave the store unchanged (in
particular a non-numeric id yields 404, not a server error). -/
theorem c3_not_found_symmetry :
    ∀ (items : List Item) (s : String) (body : ReqBody),
      (jsParseInt s = none ∨ ∃ n, jsParseInt s = some n ∧ ∀ i ∈ items, i.id ≠ n) →
      getItem items s = ({ status := 404, body := .text "Item not found" }, items) ∧
      putItem items s body = ({ status := 404, body := .text "Item not found" }, items) ∧
      deleteItem items s = ({ status := 404, body := .text "Item not found" }, items) := by
  intro items s body h
  have hfalse : ∀ i ∈ items, idEq (jsParseInt s) i.id = false := by
    intro i hi
    rcases h with hnone | ⟨n, hn, hne⟩
    · simp [hnone, idEq]
    · simp [hn, idEq]
      exact hne i hi
  refine ⟨?_, ?_, ?_⟩
  · simp only [getItem]
    rw [List.find?_eq_none.mpr (by intro x hx; simp [hfalse x hx])]
  · simp only [putItem]
    rw [updateFirst_eq_none _ _ _ hfalse]
  · simp only [deleteItem]
    rw [List.filter_eq_self.mpr (by intro a ha; simp [hfalse a ha])]
    rw [if_neg (lt_irrefl _)]

/-- C3 witness: id 99 is absent from the seeded store; "0x5" parses as
hexadecimal 5, also absent; "abc" parses to NaN. -/
theorem c3_witness :
    (getItem seedItems "99" = ({ status := 404, body := .text "Item not found" }, seedItems) ∧
     putItem seedItems "99" { name := none, description := none } =
       ({ status := 404, body := .text "Item not found" }, seedItems) ∧
     deleteItem seedItems "99" =
       ({ status := 404, body := .text "Item not found" }, seedItems)) ∧
    getItem seedItems "0x5" = ({ status := 404, body := .text "Item not found" }, seedItems) ∧
    getItem seedItems "abc" = ({ status := 404, body := .text "Item not found" }, seedItems) :=
  ⟨c3_not_found_symmetry seedItems "99" { name := none, description := none }
      (Or.inr ⟨99, by decide, by decide⟩),
   (c3_not_found_symmetry seedItems "0x5" { name := none, description := none }
      (Or.inr ⟨5, by decide, by decide⟩)).1,
   (c3_not_found_symmetry seedItems "abc" { name := none, description := none }
      (Or.inl (by decide))).1⟩

/-- C7: every store reachable from the seeded store by any sequence of
create, update and delete requests has pairwise-distinct item ids. -/
theorem c7_ids_distinct : ∀ items, Reachable items → (items.map Item.id).Nodup := by
  intro items h
  induction h with
  | seed => decide
  | post body _ ih => exact postItem_nodup _ body ih
  | put s body _ ih => rw [putItem_map_id]; exact ih
  | del s _ ih => exact deleteItem_nodup _ s ih

/-- C7 witness: the state after one create on the seeded store. -/
theorem c7_witness :
    (((postItem seedItems { name := some "X", description := none }).2).map Item.id).Nodup :=
  c7_ids_distinct _ (Reachable.post { name := some "X", description := none } Reachable.seed)

/-- C8: for an id present in a store with distinct ids, DELETE returns
204 with empty body and shrinks the store by exactly one; an
immediately repeated DELETE of the same id returns 404 "Item not
found" and leaves the store unchanged. -/
theorem c8_delete_removes_exactly_one :
    ∀ (items : List Item) (s : String) (n : Int),
      jsParseInt s = some n → n ∈ items.map Item.id → (items.map Item.id).Nodup →
      (deleteItem items s).1 = { status := 204, body := .empty } ∧
      (deleteItem items s).2.length + 1 = items.length ∧
      deleteItem (deleteItem items s).2 s =
        ({ status := 404, body := .text "Item not found" }, (deleteItem items s).2) := by
  intro items s n hs hmem hnd
  obtain ⟨it, hit, hitid⟩ := List.mem_map.mp hmem
  have hpit : (fun i => !(idEq (jsParseInt s) i.id)) it = false := by
    simp [hs, idEq, hitid]
  have hlt := length_filter_lt (fun i => !(idEq (jsParseInt s) i.id)) items it hit hpit
  have hdel : deleteItem items s =
      (⟨204, .empty⟩, items.filter fun i => !(idEq (jsParseInt s) i.id)) := by
    simp only [deleteItem]
    rw [if_pos hlt]
  have hlen : (items.filter fun i => !(idEq (jsParseInt s) i.id)).length + 1 = items.length := by
    rw [hs]
    exact length_filter_ne_id n items hnd hmem
  have hsecond : ∀ x ∈ items.filter fun i => !(idEq (jsParseInt s) i.id), x.id ≠ n := by
    intro x hx
    have hh := (List.mem_filter.mp hx).2
    simpa [hs, idEq] using hh
  refine ⟨by rw [hdel], by rw [hdel]; exact hlen, ?_⟩
  rw [hdel]
  simp only [deleteItem]
  rw [List.filter_eq_self.mpr (by intro a ha; simp [hs, idEq, hsecond a ha])]
  rw [if_neg (lt_irrefl _)]

/-- C8 witness: deleting id 1 from the seeded store, twice. -/
theorem c8_witness :
    (deleteItem seedItems "1").1 = { status := 204, body := .empty } ∧
    (deleteItem seedItems "1").2.length + 1 = seedItems.length ∧
    deleteItem (deleteItem seedItems "1").2 "1" =
      ({ status := 404, body := .text "Item not found" }, (deleteItem seedItems "1").2) :=
  c8_delete_removes_exactly_one seedItems "1" 1 (by decide) (by decide) (by decide)
example : jsParseInt "3abc" = some 3 := by decide
example : jsParseInt "abc" = none := by decide
example : jsParseInt "-12x" = some (-12) := by decide
example : jsParseInt "0x1" = some 1 := by decide
example : jsParseInt "0X1A" = some 26 := by decide
example : jsParseInt "-0x10" = some (-16) := by decide
example : jsParseInt "0x" = none := by decide
example : jsParseInt "08" = some 8 := by decide
example : jsParseInt (String.mk [Char.ofNat 0x00A0, '1']) = some 1 := by decide
example : (getItem seedItems "0x1").1.status = 200 := by decide
example : (getItem seedItems (String.mk [Char.ofNat 0x00A0, '1'])).1.status = 200 := by decide
example : generateId seedItems = 4 := by decide
example : generateId [] = 1 := by decide
example : (deleteItem seedItems "3").2 = [seedItems.get ⟨0, by decide⟩, seedItems.get ⟨1, by decide⟩] := by decide
example : (postItem (deleteItem seedItems "3").2 ⟨some "X", none⟩).1.status = 201 := by decide
